import Mathlib

/-!
Shallow embedding of `gh-cpi.py`, a one-shot CLI that reads an issue file,
creates a GitHub issue, adds it to a ProjectV2 board and sets five project
fields (status, iteration, priority, size, difficulty).

External effects (the `gh` subprocess calls) are modelled by an explicit
trace of `Call` values, and the outputs of the external tool are supplied
through a `GhEnv` environment record.  `sys.exit` after printing a message
is modelled by the `Outcome.exited` error; an uncaught Python exception by
`Outcome.raised`.  Python dicts keyed by strings are modelled as
association lists built by insert-or-overwrite (`dictInsert`), so that
duplicate keys behave as in Python (last write wins, first position kept).
-/

namespace GhCpi

/-- Stream a message is printed to (`print` goes to stdout,
`sys.stderr.write` to stderr). -/
inductive OutStream where
  | stdout
  | stderr
deriving DecidableEq, Repr

/-- Terminal outcome of a run that did not return normally. -/
inductive Outcome where
  | exited (stream : OutStream) (msg : String) (code : Nat)
  | raised (exc : String)
deriving DecidableEq, Repr

/-- One external `gh` invocation, as recorded in the trace. -/
inductive Call where
  | graphql (queryRoot : String) (login : String) (project : Nat)
  | ownerQuery (login : String)
  | createIssue (repo title body : String) (assignees labels : List String)
  | itemAdd (ownerLogin : String) (project : Nat) (url : String)
  | editSelect (projectId itemId fieldId optionId : String)
  | editIteration (projectId itemId fieldId iterationId : String)
deriving DecidableEq, Repr

/-- Python dict insert: overwrite the value in place if the key exists,
else append the new binding (keys stay unique, insertion order is kept). -/
def dictInsert : List (String × String) → String → String → List (String × String)
  | [], k, v => [(k, v)]
  | (k', v') :: d, k, v =>
    if k' = k then (k, v) :: d else (k', v') :: dictInsert d k v

/-- Python dict lookup (keys are unique by construction). -/
def dictLookup (d : List (String × String)) (k : String) : Option String :=
  (d.find? (fun p => p.1 = k)).map (fun p => p.2)

/-- `Owner` record: resolved repository owner (pydantic model `Owner`). -/
structure Owner where
  id : String
  login : String
  type : String
deriving DecidableEq, Repr

/-- Raw record for one selectable option as returned by the GraphQL query
(`options { id name }`, resp. `iterations { id name: title }`). -/
structure OptionEntry where
  id : String
  name : String
deriving DecidableEq, Repr

/-- The `configuration` object of an iteration field
(`configuration { options: iterations { ... } }`). -/
structure RawOptionsObj where
  options : List OptionEntry
deriving DecidableEq, Repr

/-- Raw single-select field data (`id` plus `options`). -/
structure RawField where
  id : String
  options : List OptionEntry
deriving DecidableEq, Repr

/-- Raw iteration field data (`id` plus `configuration`). -/
structure RawIterationField where
  id : String
  configuration : RawOptionsObj
deriving DecidableEq, Repr

/-- The `data.owner.projectV2` payload of the project query. -/
structure ProjectData where
  id : String
  status : RawField
  iteration : RawIterationField
  priority : RawField
  size : RawField
  difficulty : RawField
deriving DecidableEq, Repr

/-- `ProjectOptionsField` pydantic model: field id plus name → option-id map. -/
structure ProjectOptionsField where
  id : String
  options : List (String × String)
deriving DecidableEq, Repr

/-- `ProjectInfo` pydantic model. -/
structure ProjectInfo where
  id : String
  status : ProjectOptionsField
  iteration : ProjectOptionsField
  priority : ProjectOptionsField
  size : ProjectOptionsField
  difficulty : ProjectOptionsField
deriving DecidableEq, Repr

/-- Outputs of the external `gh` tool consumed by one run. -/
structure GhEnv where
  projectData : ProjectData
  createIssueOutput : String
  itemAddId : String
deriving DecidableEq, Repr

/-- `build_options`: `{f["name"]: f["id"] for f in field["options"]}`. -/
def build_options (opts : List OptionEntry) : List (String × String) :=
  opts.foldl (fun d e => dictInsert d e.name e.id) []

/-- `query_name = "user" if owner.type == "User" else "organization"`. -/
def query_name (owner : Owner) : String :=
  if owner.type = "User" then "user" else "organization"

/-- `get_project_info`, with the GraphQL response shape supplied as `data`
(the query itself is recorded as a `Call.graphql` by the caller). -/
def get_project_info (owner : Owner) (number : Nat) (data : ProjectData) : ProjectInfo :=
  ProjectInfo.mk data.id
    (ProjectOptionsField.mk data.status.id (build_options data.status.options))
    (ProjectOptionsField.mk data.iteration.id (build_options data.iteration.configuration.options))
    (ProjectOptionsField.mk data.priority.id (build_options data.priority.options))
    (ProjectOptionsField.mk data.size.id (build_options data.size.options))
    (ProjectOptionsField.mk data.difficulty.id (build_options data.difficulty.options))

/-- `str.strip()` of the captured stdout (models `output.strip()`):
drops whitespace from both ends. -/
def pyStrip (s : String) : String :=
  String.mk (((s.data.dropWhile Char.isWhitespace).reverse.dropWhile
    Char.isWhitespace).reverse)

/-- `create_issue`: one `gh issue create` call; returns the stripped stdout. -/
def create_issue (env : GhEnv) (repo title body : String)
    (assignees labels : List String) : Call × String :=
  (Call.createIssue repo title body assignees labels, pyStrip env.createIssueOutput)

/-- `add_issue_to_project`: one `gh project item-add` call; returns the
`id` field of its JSON output. -/
def add_issue_to_project (env : GhEnv) (ownerLogin : String) (number : Nat)
    (issueUrl : String) : Call × String :=
  (Call.itemAdd ownerLogin number issueUrl, env.itemAddId)

/-- `set_project_item_field_select`: one `gh project item-edit` call with a
single-select option id. -/
def set_project_item_field_select (projectId itemId fieldId optionId : String) : Call :=
  Call.editSelect projectId itemId fieldId optionId

/-- `set_project_item_field_iteration`: one `gh project item-edit` call with
an iteration id (distinct mutation shape). -/
def set_project_item_field_iteration (projectId itemId fieldId iterationId : String) : Call :=
  Call.editIteration projectId itemId fieldId iterationId

/-- `create_project_issue`: resolves project info, validates the five field
values against the resolved option maps (short-circuit, in source order),
then creates the issue, adds it to the project and edits the five fields.
Returns the trace of external calls and the final outcome. -/
def create_project_issue (env : GhEnv) (repo : String) (project_owner : Owner)
    (project_number : Nat) (title body : String) (assignees labels : List String)
    (status iteration priority size difficulty : String) :
    List Call × Except Outcome String :=
  let project := get_project_info project_owner project_number env.projectData
  let calls := [Call.graphql (query_name project_owner) project_owner.login project_number]
  if (dictLookup project.status.options status).isNone then
    (calls, Except.error (Outcome.exited OutStream.stdout ("Invalid status: " ++ status) 1))
  else if (dictLookup project.iteration.options iteration).isNone then
    (calls, Except.error (Outcome.exited OutStream.stdout ("Invalid iteration: " ++ iteration) 1))
  else if (dictLookup project.priority.options priority).isNone then
    (calls, Except.error (Outcome.exited OutStream.stdout ("Invalid priority: " ++ priority) 1))
  else if (dictLookup project.size.options size).isNone then
    (calls, Except.error (Outcome.exited OutStream.stdout ("Invalid size: " ++ size) 1))
  else if (dictLookup project.difficulty.options difficulty).isNone then
    (calls, Except.error (Outcome.exited OutStream.stdout ("Invalid difficulty: " ++ difficulty) 1))
  else
    let created := create_issue env repo title body assignees labels
    let issueUrl := created.2
    let added := add_issue_to_project env project_owner.login project_number issueUrl
    let itemId := added.2
    (calls ++ [created.1, added.1,
      set_project_item_field_select project.id itemId project.status.id
        ((dictLookup project.status.options status).getD ""),
      set_project_item_field_iteration project.id itemId project.iteration.id
        ((dictLookup project.iteration.options iteration).getD ""),
      set_project_item_field_select project.id itemId project.priority.id
        ((dictLookup project.priority.options priority).getD ""),
      set_project_item_field_select project.id itemId project.size.id
        ((dictLookup project.size.options size).getD ""),
      set_project_item_field_select project.id itemId project.difficulty.id
        ((dictLookup project.difficulty.options difficulty).getD "")],
     Except.ok issueUrl)

/-- Python floor division `//` on integers (rounds toward negative
infinity). -/
def pyFloorDiv (a b : Int) : Int := Int.fdiv a b

/-- `Issue.iteration_number_current`: `(date.today() - self.inception).days // 7`,
with dates as day numbers. -/
def iteration_number_current (today inception : Int) : Int :=
  pyFloorDiv (today - inception) 7

/-- `Issue.iteration_number_next`: current + 1. -/
def iteration_number_next (today inception : Int) : Int :=
  iteration_number_current today inception + 1

/-- `StatusEnum` literals. -/
inductive StatusEnum where
  | inbox
  | todo
  | next
  | current
  | done
deriving DecidableEq, Repr

/-- String value of a `StatusEnum` member. -/
def StatusEnum.value : StatusEnum → String
  | .inbox => "Inbox"
  | .todo => "Todo"
  | .next => "Next"
  | .current => "Current"
  | .done => "Done"

/-- Parse a raw string into `StatusEnum` (pydantic enum coercion). -/
def StatusEnum.parse (s : String) : Option StatusEnum :=
  [StatusEnum.inbox, .todo, .next, .current, .done].find? (fun e => e.value = s)

/-- `IterationEnum` literals. -/
inductive IterationEnum where
  | current
  | next
deriving DecidableEq, Repr

/-- String value of an `IterationEnum` member. -/
def IterationEnum.value : IterationEnum → String
  | .current => "@current"
  | .next => "@next"

/-- Parse a raw string into `IterationEnum`. -/
def IterationEnum.parse (s : String) : Option IterationEnum :=
  [IterationEnum.current, .next].find? (fun e => e.value = s)

/-- `PriorityEnum` literals. -/
inductive PriorityEnum where
  | one
  | two
  | three
deriving DecidableEq, Repr

/-- String value of a `PriorityEnum` member. -/
def PriorityEnum.value : PriorityEnum → String
  | .one => "1"
  | .two => "2"
  | .three => "3"

/-- Parse a raw string into `PriorityEnum`. -/
def PriorityEnum.parse (s : String) : Option PriorityEnum :=
  [PriorityEnum.one, .two, .three].find? (fun e => e.value = s)

/-- `SizeEnum` literals. -/
inductive SizeEnum where
  | small
  | medium
  | large
  | unknown
deriving DecidableEq, Repr

/-- String value of a `SizeEnum` member. -/
def SizeEnum.value : SizeEnum → String
  | .small => "S"
  | .medium => "M"
  | .large => "L"
  | .unknown => "?"

/-- Parse a raw string into `SizeEnum`. -/
def SizeEnum.parse (s : String) : Option SizeEnum :=
  [SizeEnum.small, .medium, .large, .unknown].find? (fun e => e.value = s)

/-- `DifficultyEnum` literals. -/
inductive DifficultyEnum where
  | easy
  | medium
  | hard
  | unknown
deriving DecidableEq, Repr

/-- String value of a `DifficultyEnum` member. -/
def DifficultyEnum.value : DifficultyEnum → String
  | .easy => "E"
  | .medium => "M"
  | .hard => "H"
  | .unknown => "?"

/-- Parse a raw string into `DifficultyEnum`. -/
def DifficultyEnum.parse (s : String) : Option DifficultyEnum :=
  [DifficultyEnum.easy, .medium, .hard, .unknown].find? (fun e => e.value = s)

/-- The validated `Issue` pydantic model; dates are day numbers. -/
structure Issue where
  owner : Owner
  repository : String
  project : Nat
  title : String
  body : String
  assignees : List String
  labels : List String
  status : StatusEnum
  iteration : IterationEnum
  priority : PriorityEnum
  size : SizeEnum
  difficulty : DifficultyEnum
  inception : Int
deriving DecidableEq, Repr

/-- `Issue.iteration_number`: current or next per the `iteration` enum. -/
def Issue.iteration_number (iss : Issue) (today : Int) : Int :=
  match iss.iteration with
  | .current => iteration_number_current today iss.inception
  | .next => iteration_number_next today iss.inception

/-- `Issue.iteration_title`: `f"Iteration {self.iteration_number}"`. -/
def Issue.iteration_title (iss : Issue) (today : Int) : String :=
  "Iteration " ++ toString (iss.iteration_number today)

/-- Days since 1970-01-01 of a proleptic Gregorian date (y, m, d). -/
def daysFromCivil (y : Int) (m d : Nat) : Int :=
  let yAdj := if m ≤ 2 then y - 1 else y
  let era := Int.fdiv yAdj 400
  let yoe := (yAdj - era * 400).toNat
  let mp := if 2 < m then m - 3 else m + 9
  let doy := (153 * mp + 2) / 5 + (d - 1)
  let doe := yoe * 365 + yoe / 4 - yoe / 100 + doy
  era * 146097 + (doe : Int) - 719468

/-- Gregorian date (year, month, day) of a day number. -/
def civilFromDays (z : Int) : Int × Nat × Nat :=
  let zs := z + 719468
  let era := Int.fdiv zs 146097
  let doe := (zs - era * 146097).toNat
  let yoe := (doe - doe / 1460 + doe / 36524 - doe / 146096) / 365
  let y := (yoe : Int) + era * 400
  let doy := doe - (365 * yoe + yoe / 4 - yoe / 100)
  let mp := (5 * doy + 2) / 153
  let d := doy - (153 * mp + 2) / 5 + 1
  let m := if mp < 10 then mp + 3 else mp - 9
  (if m ≤ 2 then y + 1 else y, m, d)

/-- `tm_wday` of a day number: day of week with Sunday = 0
(1970-01-01 was a Thursday, hence the offset 4). -/
def weekdaySunday0 (z : Int) : Nat := ((z + 4) % 7).toNat

/-- `tm_yday`-style zero-based day of the year of a day number. -/
def dayOfYear0 (z : Int) : Nat :=
  (z - daysFromCivil (civilFromDays z).1 1 1).toNat

/-- `strftime %U`: week of the year with Sunday as the first day of the
week; days before the first Sunday are week 0. -/
def weekOfYearU (z : Int) : Nat :=
  (dayOfYear0 z + 7 - weekdaySunday0 z) / 7

/-- Left-pad a decimal rendering with zeros to the given width. -/
def padZeros (w : Nat) (s : String) : String :=
  String.mk (List.replicate (w - s.length) '0') ++ s

/-- Two-digit zero-padded number (`%m`, `%d`, `%H`, `%M`, `%S`, `%U`). -/
def format2 (n : Nat) : String := padZeros 2 (toString n)

/-- Four-digit zero-padded year (`%Y`). -/
def format4 (y : Int) : String := padZeros 4 (toString y)

/-- `date.isoformat()` / `%Y-%m-%d` of a day number. -/
def isoDateOf (z : Int) : String :=
  let c := civilFromDays z
  format4 c.1 ++ "-" ++ format2 c.2.1 ++ "-" ++ format2 c.2.2

/-- `strftime("%Y/w%U")` of a day number. -/
def strfWeek (z : Int) : String :=
  format4 (civilFromDays z).1 ++ "/w" ++ format2 (weekOfYearU z)

/-- `strftime("%Y-%m")` of a day number. -/
def strfMonth (z : Int) : String :=
  format4 (civilFromDays z).1 ++ "-" ++ format2 (civilFromDays z).2.1

/-- A UTC instant: day number plus time of day. -/
structure Instant where
  days : Int
  hour : Nat
  minute : Nat
  second : Nat
deriving DecidableEq, Repr

/-- `now.strftime("%Y-%m-%dT%H:%M:%SZ")`. -/
def strfNow (i : Instant) : String :=
  isoDateOf i.days ++ "T" ++ format2 i.hour ++ ":" ++ format2 i.minute
    ++ ":" ++ format2 i.second ++ "Z"

/-- Scanner state of the `str.format` pass: copying literal text, just
after an unescaped `\x7b`, just after an unescaped `\x7d`, or inside a
replacement-field name (accumulated in reverse). -/
inductive FmtState where
  | lit
  | openBrace
  | closeBrace
  | field (acc : List Char)
deriving DecidableEq, Repr

/-- One pass of Python `str.format`.  `\x7b\x7b` and `\x7d\x7d` are brace
escapes; an unknown field name raises `KeyError`; an unmatched brace is a
`ValueError`.  Conversion (`!`) and format-spec (`:`) syntax is not used
by this program's call site and is modelled as an error. -/
def pyFormatGo (env : String → Option String) :
    FmtState → List Char → String → Except String String
  | FmtState.lit, [], out => Except.ok out
  | FmtState.openBrace, [], _ =>
    Except.error "ValueError: Single open brace encountered"
  | FmtState.closeBrace, [], _ =>
    Except.error "ValueError: Single close brace encountered"
  | FmtState.field _, [], _ =>
    Except.error "ValueError: expected close brace before end of string"
  | FmtState.lit, c :: rest, out =>
    if c = '\x7b' then pyFormatGo env FmtState.openBrace rest out
    else if c = '\x7d' then pyFormatGo env FmtState.closeBrace rest out
    else pyFormatGo env FmtState.lit rest (out.push c)
  | FmtState.openBrace, c :: rest, out =>
    if c = '\x7b' then pyFormatGo env FmtState.lit rest (out.push '\x7b')
    else if c = '\x7d' then
      match env "" with
      | some v => pyFormatGo env FmtState.lit rest (out ++ v)
      | none => Except.error ("KeyError: " ++ "")
    else if c = ':' ∨ c = '!' then Except.error "format spec not modelled"
    else pyFormatGo env (FmtState.field [c]) rest out
  | FmtState.closeBrace, c :: rest, out =>
    if c = '\x7d' then pyFormatGo env FmtState.lit rest (out.push '\x7d')
    else Except.error "ValueError: Single close brace encountered"
  | FmtState.field acc, c :: rest, out =>
    if c = '\x7d' then
      match env (String.mk acc.reverse) with
      | some v => pyFormatGo env FmtState.lit rest (out ++ v)
      | none => Except.error ("KeyError: " ++ String.mk acc.reverse)
    else if c = ':' ∨ c = '!' then Except.error "format spec not modelled"
    else pyFormatGo env (FmtState.field (c :: acc)) rest out

/-- Python `template.format(**kwargs)` with keyword lookup `env`. -/
def pyFormat (template : String) (env : String → Option String) : Except String String :=
  pyFormatGo env FmtState.lit template.data ""

/-- The keyword bindings passed to `self.title.format(...)` in
`title_rendered`: `i` is the UTC `now`, `todayLocal` the local date used
by `date.today()` inside the iteration-number properties, `inception` the
issue's inception date. -/
def placeholderValue (i : Instant) (todayLocal inception : Int) :
    String → Option String
  | "current_iteration" => some (toString (iteration_number_current todayLocal inception))
  | "next_iteration" => some (toString (iteration_number_next todayLocal inception))
  | "now" => some (strfNow i)
  | "today" => some (isoDateOf i.days)
  | "tomorrow" => some (isoDateOf (i.days + 1))
  | "this_week" => some (strfWeek i.days)
  | "next_week" => some (strfWeek (i.days + 7))
  | "this_month" => some (strfMonth i.days)
  | "next_month" => some (strfMonth (i.days + 30))
  | _ => none

/-- `Issue.title_rendered` as a function of the render instant. -/
def title_rendered (i : Instant) (todayLocal inception : Int) (title : String) :
    Except String String :=
  pyFormat title (placeholderValue i todayLocal inception)

/-- Raw record for the `data.owner` payload of the owner-lookup query. -/
structure OwnerRec where
  id : String
  login : String
  type : String
deriving DecidableEq, Repr

/-- `Owner.find`: `cls(**gh_gql(...)["data"]["owner"])`.  The response is
`resp`: `Except.error` models a non-zero exit of the `gh` process (the
runner raises `RuntimeError`), `Except.ok none` a `null` owner in the
response.  Although the annotated return type is `Owner | None`, the body
never produces `none`: on a `null` owner, `cls(**None)` raises
`TypeError`. -/
def Owner.find (resp : Except String (Option OwnerRec)) : Except String (Option Owner) :=
  match resp with
  | Except.error e => Except.error ("RuntimeError: GitHub Interface Error: " ++ e)
  | Except.ok none =>
    Except.error "TypeError: argument of type NoneType after double-star must be a mapping"
  | Except.ok (some r) => Except.ok (some (Owner.mk r.id r.login r.type))

/-- Raw front-matter metadata of an issue file: `none` means the key is
absent.  Values are given already type-correct (project as an integer,
dates as day numbers); the claims under study concern missing keys and
enum-membership violations, not type coercions. -/
structure RawMeta where
  owner : Option String
  repository : Option String
  project : Option Nat
  title : Option String
  assignees : List String
  labels : List String
  status : Option String
  iteration : Option String
  priority : Option String
  size : Option String
  difficulty : Option String
  inception : Option Int
deriving DecidableEq, Repr

/-- Default `inception` value, `datetime.date(2022, 6, 6)` as a day number. -/
def inceptionDefault : Int := daysFromCivil 2022 6 6

/-- All pydantic validation failures for an issue file, in field order:
missing required fields and enum values outside their literal set.  Each
entry is (field name, offending raw value or `"missing"`). -/
def issueValidationErrors (meta : RawMeta) : List (String × String) :=
  (match meta.repository with
   | none => [("repository", "missing")]
   | some _ => []) ++
  (match meta.project with
   | none => [("project", "missing")]
   | some _ => []) ++
  (match meta.title with
   | none => [("title", "missing")]
   | some _ => []) ++
  (match meta.status with
   | none => []
   | some s => if (StatusEnum.parse s).isSome then [] else [("status", s)]) ++
  (match meta.iteration with
   | none => []
   | some s => if (IterationEnum.parse s).isSome then [] else [("iteration", s)]) ++
  (match meta.priority with
   | none => []
   | some s => if (PriorityEnum.parse s).isSome then [] else [("priority", s)]) ++
  (match meta.size with
   | none => []
   | some s => if (SizeEnum.parse s).isSome then [] else [("size", s)]) ++
  (match meta.difficulty with
   | none => []
   | some s => if (DifficultyEnum.parse s).isSome then [] else [("difficulty", s)])

/-- Render the aggregated `ValidationError` text: one line per violation. -/
def renderValidationErrors (errs : List (String × String)) : String :=
  String.join (errs.map (fun e => e.1 ++ ": " ++ e.2 ++ "\n"))

/-- `Issue(**args)`: pydantic construction.  Collects every violation and
fails with the aggregated list when it is nonempty; otherwise builds the
issue, applying the model's field defaults for absent keys. -/
def validateIssue (owner : Owner) (meta : RawMeta) (body : String) :
    Except (List (String × String)) Issue :=
  match issueValidationErrors meta with
  | [] =>
    Except.ok (Issue.mk owner (meta.repository.getD "") (meta.project.getD 0)
      (meta.title.getD "") body meta.assignees meta.labels
      ((meta.status.bind StatusEnum.parse).getD StatusEnum.todo)
      ((meta.iteration.bind IterationEnum.parse).getD IterationEnum.current)
      ((meta.priority.bind PriorityEnum.parse).getD PriorityEnum.two)
      ((meta.size.bind SizeEnum.parse).getD SizeEnum.medium)
      ((meta.difficulty.bind DifficultyEnum.parse).getD DifficultyEnum.medium)
      (meta.inception.getD inceptionDefault))
  | errs => Except.error errs

/-- `Issue.read`: front-matter is already split into `meta` and `body`;
`ownerResp` is the response to the owner-lookup query (issued only when
the `owner` key is present).  Returns the calls issued and the outcome. -/
def Issue.read (ownerResp : Except String (Option OwnerRec)) (meta : RawMeta)
    (body : String) : List Call × Except Outcome Issue :=
  match meta.owner with
  | none =>
    ([], Except.error (Outcome.exited OutStream.stderr
      "Error: 'owner' not found in metadata\n" 1))
  | some login =>
    let calls := [Call.ownerQuery login]
    match Owner.find ownerResp with
    | Except.error exc => (calls, Except.error (Outcome.raised exc))
    | Except.ok none =>
      (calls, Except.error (Outcome.exited OutStream.stderr "Error: owner not found\n" 1))
    | Except.ok (some owner) =>
      match validateIssue owner meta body with
      | Except.error errs =>
        (calls, Except.error (Outcome.exited OutStream.stderr
          ("Error while reading issue file:\n" ++ renderValidationErrors errs) 1))
      | Except.ok issue => (calls, Except.ok issue)

/-- `main` after argument parsing: read the issue file, render the title,
then run `create_project_issue` with the arguments wired exactly as in the
source (`status=issue.status.value`, `iteration=issue.iteration_title`,
...).  `today` is the local date used by `date.today()`, `i` the UTC
render instant. -/
def main_run (ownerResp : Except String (Option OwnerRec)) (env : GhEnv)
    (meta : RawMeta) (body : String) (today : Int) (i : Instant) :
    List Call × Except Outcome String :=
  match Issue.read ownerResp meta body with
  | (calls, Except.error e) => (calls, Except.error e)
  | (calls, Except.ok issue) =>
    match title_rendered i today issue.inception issue.title with
    | Except.error exc => (calls, Except.error (Outcome.raised exc))
    | Except.ok title =>
      let r := create_project_issue env (issue.owner.login ++ "/" ++ issue.repository)
        issue.owner issue.project title issue.body issue.assignees issue.labels
        issue.status.value (issue.iteration_title today) issue.priority.value
        issue.size.value issue.difficulty.value
      (calls ++ r.1, r.2)

/-- Number of `gh issue create` calls in a trace. -/
def countCreate (calls : List Call) : Nat :=
  calls.countP (fun c => match c with | Call.createIssue .. => true | _ => false)

/-- Number of `gh project item-add` calls in a trace. -/
def countItemAdd (calls : List Call) : Nat :=
  calls.countP (fun c => match c with | Call.itemAdd .. => true | _ => false)

/-- Number of single-select `item-edit` calls in a trace. -/
def countEditSelect (calls : List Call) : Nat :=
  calls.countP (fun c => match c with | Call.editSelect .. => true | _ => false)

/-- Number of iteration `item-edit` calls in a trace. -/
def countEditIteration (calls : List Call) : Nat :=
  calls.countP (fun c => match c with | Call.editIteration .. => true | _ => false)

/-- Whether a call mutates anything (everything except the read-only
GraphQL queries). -/
def isMutating : Call → Bool
  | Call.graphql .. => false
  | Call.ownerQuery .. => false
  | _ => true

/-- The sub-trace of field-edit calls. -/
def fieldEdits (calls : List Call) : List Call :=
  calls.filter (fun c => match c with
    | Call.editSelect .. => true
    | Call.editIteration .. => true
    | _ => false)

/-- Spec-side description of short-circuit validation: the first field, in
the order status, iteration, priority, size, difficulty, whose requested
value is absent from its resolved option map, with that value. -/
def firstInvalid (p : ProjectInfo) (status iteration priority size difficulty : String) :
    Option (String × String) :=
  if (dictLookup p.status.options status).isNone then some ("status", status)
  else if (dictLookup p.iteration.options iteration).isNone then some ("iteration", iteration)
  else if (dictLookup p.priority.options priority).isNone then some ("priority", priority)
  else if (dictLookup p.size.options size).isNone then some ("size", size)
  else if (dictLookup p.difficulty.options difficulty).isNone then some ("difficulty", difficulty)
  else none

/-- `true` iff every single-select field edit in the trace occurs before
every iteration field edit. -/
def selectsBeforeIteration : List Call → Bool → Bool
  | [], _ => true
  | Call.editIteration _ _ _ _ :: rest, _ => selectsBeforeIteration rest true
  | Call.editSelect _ _ _ _ :: rest, seenIter =>
    !seenIter && selectsBeforeIteration rest seenIter
  | _ :: rest, seenIter => selectsBeforeIteration rest seenIter

/-- The id→id option list of the last entry in `l` whose name is `k`
(Python dict comprehension semantics: later duplicate keys win). -/
def lastIdFor (l : List OptionEntry) (k : String) : Option String :=
  (l.reverse.find? (fun e => e.name = k)).map (fun e => e.id)

/-- Sample resolved owner (`"acme"` of id `"O_1"`, an organization). -/
def exOwner : Owner := ⟨"O_1", "acme", "Organization"⟩

/-- Sample project query payload: the five tracked fields with their
option lists (iteration options come from `configuration`). -/
def exProjectData : ProjectData :=
  ⟨"PVT_1",
   ⟨"F_status", [⟨"so1", "Inbox"⟩, ⟨"so2", "Todo"⟩, ⟨"so3", "Done"⟩]⟩,
   ⟨"F_iteration", ⟨[⟨"io3", "Iteration 3"⟩, ⟨"io4", "Iteration 4"⟩]⟩⟩,
   ⟨"F_priority", [⟨"po1", "1"⟩, ⟨"po2", "2"⟩, ⟨"po3", "3"⟩]⟩,
   ⟨"F_size", [⟨"zo1", "S"⟩, ⟨"zo2", "M"⟩, ⟨"zo3", "L"⟩, ⟨"zo4", "?"⟩]⟩,
   ⟨"F_difficulty", [⟨"do1", "E"⟩, ⟨"do2", "M"⟩, ⟨"do3", "H"⟩]⟩⟩

/-- Sample external-tool outputs. -/
def exEnv : GhEnv :=
  ⟨exProjectData, "https://github.com/acme/widgets/issues/42\n", "ITEM_1"⟩

/-- Sample owner-lookup response resolving `"acme"`. -/
def exResp : Except String (Option OwnerRec) :=
  Except.ok (some ⟨"O_1", "acme", "Organization"⟩)

/-- Metadata of a well-formed issue file. -/
def exMetaValid : RawMeta :=
  ⟨some "acme", some "widgets", some 7, some "Fix {today}", [], [],
   some "Todo", some "@current", some "2", some "M", some "E", some 19149⟩

/-- Metadata whose `status` value `"Doing"` is outside `StatusEnum`. -/
def exMetaDoing : RawMeta :=
  ⟨some "acme", some "widgets", some 7, some "T", [], [],
   some "Doing", none, none, none, none, none⟩

/-- Metadata with no `owner` key. -/
def exMetaNoOwner : RawMeta :=
  ⟨none, some "widgets", some 7, some "T", [], [],
   none, none, none, none, none, none⟩

/-- Metadata naming an owner that does not exist. -/
def exMetaGhost : RawMeta :=
  ⟨some "ghost", some "widgets", some 7, some "T", [], [],
   none, none, none, none, none, none⟩

/-- Sample render instant: 2026-10-12 15:04:05 UTC. -/
def exInstant : Instant := ⟨daysFromCivil 2026 10 12, 15, 4, 5⟩

/-- A replacement-field name with no brace, conversion or format-spec
character (the shape this model's `str.format` supports exactly). -/
def plainName (s : String) : Bool :=
  s.data.all (fun c => !(c = '\x7b' || c = '\x7d' || c = ':' || c = '!'))

/-- The `Issue` that `exMetaValid` validates to. -/
def exIssueValid : Issue :=
  ⟨exOwner, "widgets", 7, "Fix {today}", "b", [], [],
   StatusEnum.todo, IterationEnum.current, PriorityEnum.two,
   SizeEnum.medium, DifficultyEnum.easy, 19149⟩

/-- A title template using every supported placeholder. -/
def exFullTemplate : String :=
  "now={now} today={today} tomorrow={tomorrow} tw={this_week} nw={next_week} tm={this_month} nm={next_month} ci={current_iteration} ni={next_iteration}"

end GhCpi

deriving instance DecidableEq for Except

namespace GhCpi

lemma dictLookup_dictInsert (d : List (String × String)) (k v q : String) :
    dictLookup (dictInsert d k v) q = if k = q then some v else dictLookup d q := by
  induction d with
  | nil =>
    by_cases h : k = q <;> simp [dictInsert, dictLookup, List.find?_cons, h]
  | cons a d ih =>
    obtain ⟨ka, va⟩ := a
    by_cases h1 : ka = k
    · subst h1
      by_cases h2 : ka = q <;>
        simp [dictInsert, dictLookup, List.find?_cons, h2]
    · by_cases h2 : ka = q
      · subst h2
        have hkq : ¬k = ka := fun h => h1 h.symm
        simp [dictInsert, dictLookup, List.find?_cons, h1, hkq]
      · have := ih
        simp [dictInsert, dictLookup, List.find?_cons, h1, h2] at this ⊢
        exact this

lemma find?_orElse {α : Type} (p : α → Bool) (a b : List α) :
    List.find? p (a ++ b) = (List.find? p a).elim (List.find? p b) some := by
  induction a with
  | nil => simp
  | cons x a ih =>
    by_cases h : p x <;> simp [List.find?_cons, h, ih]

lemma dictLookup_foldl (l : List OptionEntry) (d : List (String × String)) (q : String) :
    dictLookup (l.foldl (fun d e => dictInsert d e.name e.id) d) q
      = (lastIdFor l q).elim (dictLookup d q) some := by
  induction l generalizing d with
  | nil => simp [lastIdFor]
  | cons e l ih =>
    rw [List.foldl_cons, ih, dictLookup_dictInsert]
    have hrev : lastIdFor (e :: l) q
        = (lastIdFor l q).elim ((List.find? (fun x => x.name = q) [e]).map (fun x => x.id)) some := by
      simp only [lastIdFor, List.reverse_cons, find?_orElse]
      cases h : List.find? (fun x => x.name = q) l.reverse <;> simp
    rw [hrev]
    cases h : lastIdFor l q with
    | some v => simp
    | none =>
      simp only [Option.elim]
      by_cases he : e.name = q <;> simp [List.find?_cons, he]

lemma dictLookup_build_options (l : List OptionEntry) (q : String) :
    dictLookup (build_options l) q = lastIdFor l q := by
  rw [build_options, dictLookup_foldl]
  cases h : lastIdFor l q <;> simp [dictLookup]

/-- C9: `get_project_info` chooses the root query field by owner type
(`user` for `"User"`, `organization` otherwise) and builds, for each of
the five tracked fields, a name → option-id mapping from the field's
options — the iteration field's from its configuration's iteration list —
where each display name resolves to the id of its last matching entry. -/
theorem get_project_info_spec (owner : Owner) (number : Nat) (data : ProjectData) :
    (owner.type = "User" → query_name owner = "user")
    ∧ (owner.type ≠ "User" → query_name owner = "organization")
    ∧ (get_project_info owner number data).id = data.id
    ∧ (get_project_info owner number data).status.options = build_options data.status.options
    ∧ (get_project_info owner number data).priority.options = build_options data.priority.options
    ∧ (get_project_info owner number data).size.options = build_options data.size.options
    ∧ (get_project_info owner number data).difficulty.options = build_options data.difficulty.options
    ∧ (get_project_info owner number data).iteration.options
        = build_options data.iteration.configuration.options
    ∧ (∀ q, dictLookup (get_project_info owner number data).status.options q
        = lastIdFor data.status.options q)
    ∧ (∀ q, dictLookup (get_project_info owner number data).iteration.options q
        = lastIdFor data.iteration.configuration.options q) :=
  ⟨fun h => by simp [query_name, h],
   fun h => by simp [query_name, h],
   rfl, rfl, rfl, rfl, rfl, rfl,
   fun q => dictLookup_build_options data.status.options q,
   fun q => dictLookup_build_options data.iteration.configuration.options q⟩

/-- C5: `iteration_number_current` is the floor of (today − inception)/7;
it is 0 at inception, 1 thirteen days later, 2 fourteen days later, and
`iteration_number_next` is always its successor. -/
theorem iteration_number_current_floor :
    (∀ today inception : Int,
      iteration_number_current today inception = ⌊((today : ℚ) - (inception : ℚ)) / 7⌋)
    ∧ (∀ t : Int, iteration_number_current t t = 0)
    ∧ (∀ t : Int, iteration_number_current t (t - 13) = 1)
    ∧ (∀ t : Int, iteration_number_current t (t - 14) = 2)
    ∧ (∀ today inception : Int,
      iteration_number_next today inception = iteration_number_current today inception + 1) := by
  have key : ∀ a : Int, Int.fdiv a 7 = ⌊((a : ℚ)) / 7⌋ := by
    intro a
    rw [Int.fdiv_eq_ediv a (by norm_num)]
    have h := Rat.floor_intCast_div_natCast a 7
    push_cast at h
    exact h.symm
  refine ⟨?_, ?_, ?_, ?_, fun t i => rfl⟩
  · intro t i
    rw [iteration_number_current, pyFloorDiv, key]
    push_cast
    ring_nf
  · intro t
    simp [iteration_number_current, pyFloorDiv]
  · intro t
    have h : t - (t - 13) = 13 := by ring
    rw [iteration_number_current, pyFloorDiv, h]
    decide
  · intro t
    have h : t - (t - 14) = 14 := by ring
    rw [iteration_number_current, pyFloorDiv, h]
    decide

/-- C6: when the metadata lacks the `owner` key, `Issue.read` exits with
code 1 and a stderr message, and no external call — in particular no
owner-lookup query — is ever issued. -/
theorem issue_read_missing_owner (ownerResp : Except String (Option OwnerRec))
    (meta : RawMeta) (body : String) (h : meta.owner = none) :
    Issue.read ownerResp meta body
      = ([], Except.error (Outcome.exited OutStream.stderr
          "Error: 'owner' not found in metadata\n" 1)) := by
  rw [Issue.read, h]

/-- C6 witness: a concrete file without `owner` exits that way. -/
theorem issue_read_missing_owner_witness :
    Issue.read exResp exMetaNoOwner "body text"
      = ([], Except.error (Outcome.exited OutStream.stderr
          "Error: 'owner' not found in metadata\n" 1)) :=
  issue_read_missing_owner exResp exMetaNoOwner "body text" rfl

/-- C2: when some requested field value is missing from its resolved
option map, `create_project_issue` reports only the first failing field in
the order status, iteration, priority, size, difficulty, printing
`Invalid <field>: <value>` and exiting with code 1, after issuing only the
project-info query — no create-issue, add-to-project or field-edit call. -/
theorem create_project_issue_first_invalid (env : GhEnv) (repo : String)
    (po : Owner) (pn : Nat) (title body : String) (assignees labels : List String)
    (status iteration priority size difficulty : String) (f v : String)
    (h : firstInvalid (get_project_info po pn env.projectData)
        status iteration priority size difficulty = some (f, v)) :
    create_project_issue env repo po pn title body assignees labels
        status iteration priority size difficulty
      = ([Call.graphql (query_name po) po.login pn],
         Except.error (Outcome.exited OutStream.stdout ("Invalid " ++ f ++ ": " ++ v) 1))
    ∧ countCreate (create_project_issue env repo po pn title body assignees labels
        status iteration priority size difficulty).1 = 0
    ∧ countItemAdd (create_project_issue env repo po pn title body assignees labels
        status iteration priority size difficulty).1 = 0
    ∧ countEditSelect (create_project_issue env repo po pn title body assignees labels
        status iteration priority size difficulty).1 = 0
    ∧ countEditIteration (create_project_issue env repo po pn title body assignees labels
        status iteration priority size difficulty).1 = 0 := by
  have main : create_project_issue env repo po pn title body assignees labels
        status iteration priority size difficulty
      = ([Call.graphql (query_name po) po.login pn],
         Except.error (Outcome.exited OutStream.stdout ("Invalid " ++ f ++ ": " ++ v) 1)) := by
    unfold firstInvalid at h
    unfold create_project_issue
    by_cases h1 : (dictLookup (get_project_info po pn env.projectData).status.options
        status).isNone = true
    · rw [if_pos h1] at h
      obtain ⟨rfl, rfl⟩ : "status" = f ∧ status = v := by simpa using h
      rw [if_pos h1]
      simp
    · rw [if_neg h1] at h
      rw [if_neg h1]
      by_cases h2 : (dictLookup (get_project_info po pn env.projectData).iteration.options
          iteration).isNone = true
      · rw [if_pos h2] at h
        obtain ⟨rfl, rfl⟩ : "iteration" = f ∧ iteration = v := by simpa using h
        rw [if_pos h2]
        simp
      · rw [if_neg h2] at h
        rw [if_neg h2]
        by_cases h3 : (dictLookup (get_project_info po pn env.projectData).priority.options
            priority).isNone = true
        · rw [if_pos h3] at h
          obtain ⟨rfl, rfl⟩ : "priority" = f ∧ priority = v := by simpa using h
          rw [if_pos h3]
          simp
        · rw [if_neg h3] at h
          rw [if_neg h3]
          by_cases h4 : (dictLookup (get_project_info po pn env.projectData).size.options
              size).isNone = true
          · rw [if_pos h4] at h
            obtain ⟨rfl, rfl⟩ : "size" = f ∧ size = v := by simpa using h
            rw [if_pos h4]
            simp
          · rw [if_neg h4] at h
            rw [if_neg h4]
            by_cases h5 : (dictLookup (get_project_info po pn env.projectData).difficulty.options
                difficulty).isNone = true
            · rw [if_pos h5] at h
              obtain ⟨rfl, rfl⟩ : "difficulty" = f ∧ difficulty = v := by simpa using h
              rw [if_pos h5]
              simp
            · rw [if_neg h5] at h
              exact absurd h (by simp)
  refine ⟨main, ?_, ?_, ?_, ?_⟩ <;> rw [main] <;> rfl

/-- C2 witness: requesting status `"Doing"` against options
Inbox/Todo/Done fails naming `status` and `Doing`, with only the query in
the trace. -/
theorem create_project_issue_first_invalid_witness :
    create_project_issue exEnv "acme/widgets" exOwner 7 "T" "b" [] []
        "Doing" "Iteration 3" "2" "M" "E"
      = ([Call.graphql (query_name exOwner) exOwner.login 7],
         Except.error (Outcome.exited OutStream.stdout ("Invalid " ++ "status" ++ ": " ++ "Doing") 1))
    ∧ countCreate (create_project_issue exEnv "acme/widgets" exOwner 7 "T" "b" [] []
        "Doing" "Iteration 3" "2" "M" "E").1 = 0
    ∧ countItemAdd (create_project_issue exEnv "acme/widgets" exOwner 7 "T" "b" [] []
        "Doing" "Iteration 3" "2" "M" "E").1 = 0
    ∧ countEditSelect (create_project_issue exEnv "acme/widgets" exOwner 7 "T" "b" [] []
        "Doing" "Iteration 3" "2" "M" "E").1 = 0
    ∧ countEditIteration (create_project_issue exEnv "acme/widgets" exOwner 7 "T" "b" [] []
        "Doing" "Iteration 3" "2" "M" "E").1 = 0 :=
  create_project_issue_first_invalid exEnv "acme/widgets" exOwner 7 "T" "b" [] []
    "Doing" "Iteration 3" "2" "M" "E" "status" "Doing" (by decide)

/-- C1: when all five requested values are present in their resolved
option maps, the run issues exactly one create-issue call, one
add-to-project call, four single-select edits and one iteration edit, and
returns the string returned by `create_issue` unchanged. -/
theorem create_project_issue_happy (env : GhEnv) (repo : String)
    (po : Owner) (pn : Nat) (title body : String) (assignees labels : List String)
    (status iteration priority size difficulty : String)
    (h1 : (dictLookup (get_project_info po pn env.projectData).status.options status).isSome = true)
    (h2 : (dictLookup (get_project_info po pn env.projectData).iteration.options iteration).isSome = true)
    (h3 : (dictLookup (get_project_info po pn env.projectData).priority.options priority).isSome = true)
    (h4 : (dictLookup (get_project_info po pn env.projectData).size.options size).isSome = true)
    (h5 : (dictLookup (get_project_info po pn env.projectData).difficulty.options difficulty).isSome = true) :
    (create_project_issue env repo po pn title body assignees labels
        status iteration priority size difficulty).2
      = Except.ok (create_issue env repo title body assignees labels).2
    ∧ countCreate (create_project_issue env repo po pn title body assignees labels
        status iteration priority size difficulty).1 = 1
    ∧ countItemAdd (create_project_issue env repo po pn title body assignees labels
        status iteration priority size difficulty).1 = 1
    ∧ countEditSelect (create_project_issue env repo po pn title body assignees labels
        status iteration priority size difficulty).1 = 4
    ∧ countEditIteration (create_project_issue env repo po pn title body assignees labels
        status iteration priority size difficulty).1 = 1 := by
  obtain ⟨v1, hv1⟩ := Option.isSome_iff_exists.mp h1
  obtain ⟨v2, hv2⟩ := Option.isSome_iff_exists.mp h2
  obtain ⟨v3, hv3⟩ := Option.isSome_iff_exists.mp h3
  obtain ⟨v4, hv4⟩ := Option.isSome_iff_exists.mp h4
  obtain ⟨v5, hv5⟩ := Option.isSome_iff_exists.mp h5
  refine ⟨?_, ?_, ?_, ?_, ?_⟩ <;>
    simp [create_project_issue, create_issue, add_issue_to_project,
      set_project_item_field_select, set_project_item_field_iteration,
      countCreate, countItemAdd, countEditSelect, countEditIteration,
      hv1, hv2, hv3, hv4, hv5]

/-- C1 witness: the happy path on concrete data. -/
theorem create_project_issue_happy_witness :
    (create_project_issue exEnv "acme/widgets" exOwner 7 "Fix 2026-10-12" "b" [] []
        "Todo" "Iteration 3" "2" "M" "E").2
      = Except.ok (create_issue exEnv "acme/widgets" "Fix 2026-10-12" "b" [] []).2
    ∧ countCreate (create_project_issue exEnv "acme/widgets" exOwner 7 "Fix 2026-10-12" "b" [] []
        "Todo" "Iteration 3" "2" "M" "E").1 = 1
    ∧ countItemAdd (create_project_issue exEnv "acme/widgets" exOwner 7 "Fix 2026-10-12" "b" [] []
        "Todo" "Iteration 3" "2" "M" "E").1 = 1
    ∧ countEditSelect (create_project_issue exEnv "acme/widgets" exOwner 7 "Fix 2026-10-12" "b" [] []
        "Todo" "Iteration 3" "2" "M" "E").1 = 4
    ∧ countEditIteration (create_project_issue exEnv "acme/widgets" exOwner 7 "Fix 2026-10-12" "b" [] []
        "Todo" "Iteration 3" "2" "M" "E").1 = 1 :=
  create_project_issue_happy exEnv "acme/widgets" exOwner 7 "Fix 2026-10-12" "b" [] []
    "Todo" "Iteration 3" "2" "M" "E"
    (by decide) (by decide) (by decide) (by decide) (by decide)

/-- C7 counterexample: on a successful concrete run with four
single-select edits and one iteration edit, it is not the case that every
single-select edit precedes the iteration edit (the iteration edit is the
second field edit, not the last). -/
theorem create_project_issue_edit_order_cex :
    (create_project_issue exEnv "acme/widgets" exOwner 7 "T" "b" [] []
        "Todo" "Iteration 3" "2" "M" "E").2
      = Except.ok "https://github.com/acme/widgets/issues/42"
    ∧ countEditSelect (create_project_issue exEnv "acme/widgets" exOwner 7 "T" "b" [] []
        "Todo" "Iteration 3" "2" "M" "E").1 = 4
    ∧ countEditIteration (create_project_issue exEnv "acme/widgets" exOwner 7 "T" "b" [] []
        "Todo" "Iteration 3" "2" "M" "E").1 = 1
    ∧ selectsBeforeIteration (create_project_issue exEnv "acme/widgets" exOwner 7 "T" "b" [] []
        "Todo" "Iteration 3" "2" "M" "E").1 false = false := by
  refine ⟨?_, ?_, ?_, ?_⟩ <;> decide

/-- C7 (amended): in a successful run the field edits are issued in the
order status (single-select), iteration (the distinct iteration-id
mutation, second), then priority, size, difficulty (single-select). -/
theorem create_project_issue_edit_order (env : GhEnv) (repo : String)
    (po : Owner) (pn : Nat) (title body : String) (assignees labels : List String)
    (status iteration priority size difficulty : String)
    (h1 : (dictLookup (get_project_info po pn env.projectData).status.options status).isSome = true)
    (h2 : (dictLookup (get_project_info po pn env.projectData).iteration.options iteration).isSome = true)
    (h3 : (dictLookup (get_project_info po pn env.projectData).priority.options priority).isSome = true)
    (h4 : (dictLookup (get_project_info po pn env.projectData).size.options size).isSome = true)
    (h5 : (dictLookup (get_project_info po pn env.projectData).difficulty.options difficulty).isSome = true) :
    fieldEdits (create_project_issue env repo po pn title body assignees labels
        status iteration priority size difficulty).1
      = [set_project_item_field_select (get_project_info po pn env.projectData).id
           env.itemAddId (get_project_info po pn env.projectData).status.id
           ((dictLookup (get_project_info po pn env.projectData).status.options status).getD ""),
         set_project_item_field_iteration (get_project_info po pn env.projectData).id
           env.itemAddId (get_project_info po pn env.projectData).iteration.id
           ((dictLookup (get_project_info po pn env.projectData).iteration.options iteration).getD ""),
         set_project_item_field_select (get_project_info po pn env.projectData).id
           env.itemAddId (get_project_info po pn env.projectData).priority.id
           ((dictLookup (get_project_info po pn env.projectData).priority.options priority).getD ""),
         set_project_item_field_select (get_project_info po pn env.projectData).id
           env.itemAddId (get_project_info po pn env.projectData).size.id
           ((dictLookup (get_project_info po pn env.projectData).size.options size).getD ""),
         set_project_item_field_select (get_project_info po pn env.projectData).id
           env.itemAddId (get_project_info po pn env.projectData).difficulty.id
           ((dictLookup (get_project_info po pn env.projectData).difficulty.options difficulty).getD "")] := by
  obtain ⟨v1, hv1⟩ := Option.isSome_iff_exists.mp h1
  obtain ⟨v2, hv2⟩ := Option.isSome_iff_exists.mp h2
  obtain ⟨v3, hv3⟩ := Option.isSome_iff_exists.mp h3
  obtain ⟨v4, hv4⟩ := Option.isSome_iff_exists.mp h4
  obtain ⟨v5, hv5⟩ := Option.isSome_iff_exists.mp h5
  simp [create_project_issue, create_issue, add_issue_to_project,
    set_project_item_field_select, set_project_item_field_iteration, fieldEdits,
    hv1, hv2, hv3, hv4, hv5]

lemma append_ne_of_longer (a s b : String) (h : b.length < a.length) : a ++ s ≠ b := by
  intro he
  have h2 := congrArg String.length he
  rw [String.length_append] at h2
  omega

lemma owner_find_ne_ok_none (resp : Except String (Option OwnerRec)) :
    Owner.find resp ≠ Except.ok none := by
  match resp with
  | Except.error e => simp [Owner.find]
  | Except.ok none => simp [Owner.find]
  | Except.ok (some r) => simp [Owner.find]

/-- C4: `Owner.find` can never return a `None` owner — on a `null`
response `cls(**None)` raises `TypeError` — so for an owner login that
does not resolve, `Issue.read` terminates with an uncaught exception and
the distinct `Error: owner not found` stderr message with exit code 1 is
unreachable on every input. -/
theorem owner_not_found_bug :
    (Issue.read (Except.ok none) exMetaGhost "b"
      = ([Call.ownerQuery "ghost"],
         Except.error (Outcome.raised
           "TypeError: argument of type NoneType after double-star must be a mapping")))
    ∧ (∀ resp : Except String (Option OwnerRec), Owner.find resp ≠ Except.ok none)
    ∧ (∀ (resp : Except String (Option OwnerRec)) (meta : RawMeta) (body : String),
        (Issue.read resp meta body).2
          ≠ Except.error (Outcome.exited OutStream.stderr "Error: owner not found\n" 1)) := by
  refine ⟨by decide, owner_find_ne_ok_none, ?_⟩
  intro resp meta body
  unfold Issue.read
  cases hmo : meta.owner with
  | none =>
    simp only []
    decide
  | some login =>
    simp only []
    cases hf : Owner.find resp with
    | error exc => simp
    | ok o =>
      cases o with
      | none => exact absurd hf (owner_find_ne_ok_none resp)
      | some owner =>
        cases hv : validateIssue owner meta body with
        | error errs =>
          simp only [hv]
          intro he
          injection he with h1
          injection h1 with hs hm hc
          exact append_ne_of_longer "Error while reading issue file:\n"
            (renderValidationErrors errs) "Error: owner not found\n" (by decide) hm
        | ok issue => simp [hv]

/-- C3 counterexample: a file with invalid status `"Doing"` does fail
schema construction with the aggregated error, but the owner-lookup call
has already been issued at that point, so the failure is not "before any
network or external-process call": the trace is nonempty. -/
theorem issue_read_enum_invalid_cex :
    (Issue.read exResp exMetaDoing "b").2
      = Except.error (Outcome.exited OutStream.stderr
          "Error while reading issue file:\nstatus: Doing\n" 1)
    ∧ (Issue.read exResp exMetaDoing "b").1 = [Call.ownerQuery "acme"]
    ∧ (Issue.read exResp exMetaDoing "b").1 ≠ [] := by
  exact ⟨by decide, by decide, by decide⟩

/-- C3 (amended): an enum value outside its fixed set makes `Issue.read`
fail schema construction with an aggregated error listing every violation
and exit non-zero; the failure happens after the owner-lookup query but
before any issue-creation, project-addition or field-edit call (the trace
is exactly the owner lookup). -/
theorem issue_read_enum_invalid_aggregated
    (resp : Except String (Option OwnerRec)) (rec : OwnerRec) (meta : RawMeta)
    (body login : String)
    (hmo : meta.owner = some login)
    (hresp : resp = Except.ok (some rec))
    (herr : issueValidationErrors meta ≠ []) :
    Issue.read resp meta body
      = ([Call.ownerQuery login],
         Except.error (Outcome.exited OutStream.stderr
           ("Error while reading issue file:\n"
             ++ renderValidationErrors (issueValidationErrors meta)) 1))
    ∧ (∀ s, meta.status = some s → StatusEnum.parse s = none →
        ("status", s) ∈ issueValidationErrors meta)
    ∧ (∀ s, meta.iteration = some s → IterationEnum.parse s = none →
        ("iteration", s) ∈ issueValidationErrors meta)
    ∧ (∀ s, meta.priority = some s → PriorityEnum.parse s = none →
        ("priority", s) ∈ issueValidationErrors meta)
    ∧ (∀ s, meta.size = some s → SizeEnum.parse s = none →
        ("size", s) ∈ issueValidationErrors meta)
    ∧ (∀ s, meta.difficulty = some s → DifficultyEnum.parse s = none →
        ("difficulty", s) ∈ issueValidationErrors meta) := by
  refine ⟨?_, ?_, ?_, ?_, ?_, ?_⟩
  · subst hresp
    unfold Issue.read
    simp only [hmo, Owner.find]
    unfold validateIssue
    cases hE : issueValidationErrors meta with
    | nil => exact absurd hE herr
    | cons a t => simp [hE]
  · intro s hs hp
    simp [issueValidationErrors, hs, hp]
  · intro s hs hp
    simp [issueValidationErrors, hs, hp]
  · intro s hs hp
    simp [issueValidationErrors, hs, hp]
  · intro s hs hp
    simp [issueValidationErrors, hs, hp]
  · intro s hs hp
    simp [issueValidationErrors, hs, hp]

/-- C3 (amended) witness: the `"Doing"` file fails that way, with the
violation listed. -/
theorem issue_read_enum_invalid_aggregated_witness :
    Issue.read exResp exMetaDoing "b"
      = ([Call.ownerQuery "acme"],
         Except.error (Outcome.exited OutStream.stderr
           ("Error while reading issue file:\n"
             ++ renderValidationErrors (issueValidationErrors exMetaDoing)) 1))
    ∧ ("status", "Doing") ∈ issueValidationErrors exMetaDoing :=
  have h := issue_read_enum_invalid_aggregated exResp ⟨"O_1", "acme", "Organization"⟩
    exMetaDoing "b" "acme" rfl rfl (by decide)
  ⟨h.1, h.2.1 "Doing" rfl rfl⟩

/-- C7 (amended) witness: the concrete edit sequence. -/
theorem create_project_issue_edit_order_witness :
    fieldEdits (create_project_issue exEnv "acme/widgets" exOwner 7 "T" "b" [] []
        "Todo" "Iteration 3" "2" "M" "E").1
      = [set_project_item_field_select (get_project_info exOwner 7 exEnv.projectData).id
           exEnv.itemAddId (get_project_info exOwner 7 exEnv.projectData).status.id
           ((dictLookup (get_project_info exOwner 7 exEnv.projectData).status.options "Todo").getD ""),
         set_project_item_field_iteration (get_project_info exOwner 7 exEnv.projectData).id
           exEnv.itemAddId (get_project_info exOwner 7 exEnv.projectData).iteration.id
           ((dictLookup (get_project_info exOwner 7 exEnv.projectData).iteration.options "Iteration 3").getD ""),
         set_project_item_field_select (get_project_info exOwner 7 exEnv.projectData).id
           exEnv.itemAddId (get_project_info exOwner 7 exEnv.projectData).priority.id
           ((dictLookup (get_project_info exOwner 7 exEnv.projectData).priority.options "2").getD ""),
         set_project_item_field_select (get_project_info exOwner 7 exEnv.projectData).id
           exEnv.itemAddId (get_project_info exOwner 7 exEnv.projectData).size.id
           ((dictLookup (get_project_info exOwner 7 exEnv.projectData).size.options "M").getD ""),
         set_project_item_field_select (get_project_info exOwner 7 exEnv.projectData).id
           exEnv.itemAddId (get_project_info exOwner 7 exEnv.projectData).difficulty.id
           ((dictLookup (get_project_info exOwner 7 exEnv.projectData).difficulty.options "E").getD "")] :=
  create_project_issue_edit_order exEnv "acme/widgets" exOwner 7 "T" "b" [] []
    "Todo" "Iteration 3" "2" "M" "E"
    (by decide) (by decide) (by decide) (by decide) (by decide)

lemma iteration_title_ne_enum_value (e : IterationEnum) (n : Int) :
    "Iteration " ++ toString n ≠ e.value := by
  have hhead : (("Iteration " ++ toString n)).data.head? = some 'I' := rfl
  cases e <;> intro h <;> rw [h] at hhead <;>
    exact absurd hhead (by decide)

/-- C10: the iteration value `main` validates against the project's
iteration option map — and would use for the iteration edit — is the
computed `iteration_title` string `Iteration {n}`, which is never the
issue file's `@current`/`@next` enum literal; so whenever the project has
no iteration named exactly `Iteration {n}`, the run stops with
`Invalid iteration: Iteration {n}`. -/
theorem main_run_validates_iteration_title
    (resp : Except String (Option OwnerRec)) (env : GhEnv) (meta : RawMeta)
    (body : String) (today : Int) (i : Instant) (issue : Issue) (t : String)
    (hread : (Issue.read resp meta body).2 = Except.ok issue)
    (htitle : title_rendered i today issue.inception issue.title = Except.ok t)
    (hstatus : (dictLookup (get_project_info issue.owner issue.project
        env.projectData).status.options issue.status.value).isSome = true)
    (hiter : dictLookup (get_project_info issue.owner issue.project
        env.projectData).iteration.options (issue.iteration_title today) = none) :
    (main_run resp env meta body today i).2
      = Except.error (Outcome.exited OutStream.stdout
          ("Invalid iteration: " ++ issue.iteration_title today) 1)
    ∧ Issue.iteration_title issue today
        = "Iteration " ++ toString (issue.iteration_number today)
    ∧ (∀ (e : IterationEnum) (n : Int), "Iteration " ++ toString n ≠ e.value) := by
  refine ⟨?_, rfl, iteration_title_ne_enum_value⟩
  obtain ⟨v1, hv1⟩ := Option.isSome_iff_exists.mp hstatus
  unfold main_run
  cases hR : Issue.read resp meta body with
  | mk cs r =>
    rw [hR] at hread
    simp only at hread
    subst hread
    simp only [htitle]
    unfold create_project_issue
    rw [if_neg (by rw [hv1]; simp), if_pos (by rw [hiter]; rfl)]

/-- C10 witness: with the file's iteration `@current`, inception
2022-06-06 and local date 14 days later, the validated value is
`Iteration 2`; a project offering only `Iteration 3`/`Iteration 4` makes
the run fail with `Invalid iteration: Iteration 2`. -/
theorem main_run_validates_iteration_title_witness :
    (main_run exResp exEnv exMetaValid "b" 19163 exInstant).2
      = Except.error (Outcome.exited OutStream.stdout
          ("Invalid iteration: " ++ exIssueValid.iteration_title 19163) 1)
    ∧ exIssueValid.iteration = IterationEnum.current
    ∧ exIssueValid.iteration_title 19163 = "Iteration 2" :=
  have h := main_run_validates_iteration_title exResp exEnv exMetaValid "b" 19163
    exInstant exIssueValid "Fix 2026-10-12" (by decide) (by decide) (by decide) (by decide)
  ⟨h.1, rfl, rfl⟩

lemma pyFormatGo_field_scan (env : String → Option String) (cs rest : List Char)
    (acc : List Char) (out : String)
    (h : ∀ c ∈ cs, c ≠ '\x7d' ∧ c ≠ ':' ∧ c ≠ '!') :
    pyFormatGo env (FmtState.field acc) (cs ++ '\x7d' :: rest) out
      = match env (String.mk (acc.reverse ++ cs)) with
        | some v => pyFormatGo env FmtState.lit rest (out ++ v)
        | none => Except.error ("KeyError: " ++ String.mk (acc.reverse ++ cs)) := by
  induction cs generalizing acc with
  | nil =>
    simp [pyFormatGo]
  | cons c cs ih =>
    obtain ⟨hc1, hc2, hc3⟩ := h c (List.mem_cons_self c cs)
    have hrest : ∀ x ∈ cs, x ≠ '\x7d' ∧ x ≠ ':' ∧ x ≠ '!' :=
      fun x hx => h x (List.mem_cons_of_mem c hx)
    rw [List.cons_append]
    rw [pyFormatGo, if_neg hc1, if_neg (by simp [hc2, hc3])]
    rw [ih (c :: acc) hrest]
    simp [List.append_assoc]

lemma pyFormat_single_field (env : String → Option String) (name : String)
    (h : plainName name = true) :
    pyFormat ("\x7b" ++ name ++ "\x7d") env
      = match env name with
        | some v => Except.ok v
        | none => Except.error ("KeyError: " ++ name) := by
  have hdata : ("\x7b" ++ name ++ "\x7d").data = '\x7b' :: (name.data ++ ['\x7d']) := by
    have h1 : ("\x7b" : String).data = ['\x7b'] := rfl
    have h2 : ("\x7d" : String).data = ['\x7d'] := rfl
    rw [String.data_append, String.data_append, h1, h2]
    simp
  have hplain : ∀ c ∈ name.data, c ≠ '\x7b' ∧ c ≠ '\x7d' ∧ c ≠ ':' ∧ c ≠ '!' := by
    intro c hc
    have := List.all_eq_true.mp h c hc
    simp only [Bool.not_eq_true'] at this
    simp only [Bool.or_eq_false_iff] at this
    obtain ⟨⟨⟨e1, e2⟩, e3⟩, e4⟩ := this
    exact ⟨by simpa using e1, by simpa using e2, by simpa using e3, by simpa using e4⟩
  unfold pyFormat
  rw [hdata]
  have hopen : pyFormatGo env FmtState.lit ('\x7b' :: (name.data ++ ['\x7d'])) ""
      = pyFormatGo env FmtState.openBrace (name.data ++ ['\x7d']) "" := by
    rw [pyFormatGo, if_pos rfl]
  rw [hopen]
  cases hn : name.data with
  | nil =>
    have hname : name = "" := by
      cases name with
      | mk d => simp only at hn; rw [hn]
    subst hname
    cases henv : env "" <;> simp [pyFormatGo, henv]
  | cons c0 cs0 =>
    obtain ⟨h0a, h0b, h0c, h0d⟩ := hplain c0 (by rw [hn]; exact List.mem_cons_self c0 cs0)
    rw [List.cons_append]
    have step1 : pyFormatGo env FmtState.openBrace (c0 :: (cs0 ++ ['\x7d'])) ""
        = pyFormatGo env (FmtState.field [c0]) (cs0 ++ ['\x7d']) "" := by
      rw [pyFormatGo, if_neg h0a, if_neg h0b, if_neg (by simp [h0c, h0d])]
    rw [step1]
    rw [show (['\x7d'] : List Char) = '\x7d' :: [] from rfl]
    have hcs : ∀ x ∈ cs0, x ≠ '\x7d' ∧ x ≠ ':' ∧ x ≠ '!' := by
      intro x hx
      have hm := hplain x (by rw [hn]; exact List.mem_cons_of_mem c0 hx)
      exact ⟨hm.2.1, hm.2.2.1, hm.2.2.2⟩
    rw [pyFormatGo_field_scan env cs0 [] [c0] "" hcs]
    have hmk : String.mk (List.reverse [c0] ++ cs0) = name := by
      have : List.reverse [c0] ++ cs0 = name.data := by rw [hn]; rfl
      rw [this]
    rw [hmk]
    cases henv : env name with
    | some v =>
      simp only [henv]
      rw [pyFormatGo]
      have hv : "" ++ v = v := rfl
      rw [hv]
    | none => simp only [henv]

set_option maxRecDepth 8192 in
set_option maxHeartbeats 1000000 in
/-- C8: `title_rendered` expands the placeholders `current_iteration`,
`next_iteration`, `now` (UTC ISO-8601 with seconds and `Z` suffix),
`today`, `tomorrow`, `this_week`/`next_week` (`YYYY/wWW`, Sunday-start
week of year), `this_month`, and `next_month` (`YYYY-MM`, next month =
today + 30 days truncated to month) with the computed values — in
particular `Sprint {current_iteration}` with iteration number 3 renders to
`Sprint 3` — and any unknown placeholder is a formatting error. -/
theorem title_rendered_spec :
    (∀ (i : Instant) (today inception : Int),
      title_rendered i today inception "Sprint {current_iteration}"
        = Except.ok ("Sprint " ++ toString (iteration_number_current today inception)))
    ∧ (title_rendered exInstant 19170 19149 "Sprint {current_iteration}"
        = Except.ok "Sprint 3")
    ∧ (∀ (i : Instant) (today inception : Int),
        title_rendered i today inception "{current_iteration}"
          = Except.ok (toString (iteration_number_current today inception))
        ∧ title_rendered i today inception "{next_iteration}"
          = Except.ok (toString (iteration_number_next today inception))
        ∧ title_rendered i today inception "{now}" = Except.ok (strfNow i)
        ∧ title_rendered i today inception "{today}" = Except.ok (isoDateOf i.days)
        ∧ title_rendered i today inception "{tomorrow}" = Except.ok (isoDateOf (i.days + 1))
        ∧ title_rendered i today inception "{this_week}" = Except.ok (strfWeek i.days)
        ∧ title_rendered i today inception "{next_week}" = Except.ok (strfWeek (i.days + 7))
        ∧ title_rendered i today inception "{this_month}" = Except.ok (strfMonth i.days)
        ∧ title_rendered i today inception "{next_month}" = Except.ok (strfMonth (i.days + 30)))
    ∧ (title_rendered exInstant 19170 19149 exFullTemplate
        = Except.ok "now=2026-10-12T15:04:05Z today=2026-10-12 tomorrow=2026-10-13 tw=2026/w41 nw=2026/w42 tm=2026-10 nm=2026-11 ci=3 ni=4")
    ∧ (∀ (name : String) (i : Instant) (today inception : Int),
        plainName name = true →
        placeholderValue i today inception name = none →
        title_rendered i today inception ("\x7b" ++ name ++ "\x7d")
          = Except.error ("KeyError: " ++ name)) := by
  refine ⟨?_, ?_, ?_, ?_, ?_⟩
  · intro i today inception
    simp [title_rendered, pyFormat, pyFormatGo, placeholderValue]
    rfl
  · simp [title_rendered, pyFormat, pyFormatGo, placeholderValue,
      iteration_number_current, pyFloorDiv]
    rfl
  · intro i today inception
    refine ⟨?_, ?_, ?_, ?_, ?_, ?_, ?_, ?_, ?_⟩ <;>
      simp [title_rendered, pyFormat, pyFormatGo, placeholderValue]
  · simp [exFullTemplate, title_rendered, pyFormat, pyFormatGo, placeholderValue]
    rfl
  · intro name i today inception hpl hnone
    unfold title_rendered
    rw [pyFormat_single_field (placeholderValue i today inception) name hpl, hnone]

end GhCpi
